import Mathlib

/-!
Shallow embedding of the functional task-scheduler module
(`types.ts`, `state.ts`, `task-operations.ts`) of the repository.

Conventions of the embedding:
* `Date` values are modelled as `Int` (the result of `Date.prototype.getTime`,
  a number of milliseconds); comparisons between dates in the source are
  numeric comparisons here.
* The hidden effects of the source — `randomUUID()` for fresh identifiers and
  `new Date()` for the current instant — are made explicit parameters
  (`id : String`, `now : Int`) of the operations that perform them, one
  parameter per single read of the clock or of the generator in the source.
* A function that `throw`s is modelled as returning `Option` (with `none` for
  the thrown case); the source's `Result` tagged union is modelled by the
  `Result` inductive below, with `Error` objects replaced by their message
  strings.
* `Array.prototype.sort` with a comparator is mandated to be a stable sort by
  the ECMAScript specification; it is modelled by `List.insertionSort`, which
  is stable, applied to the non-strict relation derived from the comparator.
-/

namespace TaskScheduler

attribute [local semireducible] Substring.takeWhileAux Substring.takeRightWhileAux

/-- `TaskStatus` from `types.ts`: `"pending" | "in-progress" | "completed"`. -/
inductive TaskStatus where
  | pending
  | inProgress
  | completed
  deriving DecidableEq

/-- The `Task` record from `types.ts`. `createdAt`, `deadline` and
`completedAt` are `Date` values, modelled as `Int` milliseconds. -/
structure Task where
  id : String
  title : String
  description : String
  priority : Int
  status : TaskStatus
  createdAt : Int
  deadline : Option Int
  completedAt : Option Int
  deriving DecidableEq

/-- The `TaskState` record from `types.ts`: an ordered collection of tasks. -/
structure TaskState where
  tasks : List Task
  deriving DecidableEq

/-- The `Result` tagged union from `types.ts`, with the error component
modelled as the `Error`'s message string. -/
inductive Result (T : Type) where
  | ok (value : T)
  | error (msg : String)
  deriving DecidableEq

/-- `true` exactly on the `ok` variant (the source's `result.ok` flag). -/
def Result.isOk {T : Type} : Result T → Bool
  | .ok _ => true
  | .error _ => false

/-- The `TaskUpdate` record from `types.ts`.  In the source, `deadline` has
type `Date | null | undefined`; two layers of `Option` keep the three cases
apart: `none` is `undefined` (field absent), `some none` is `null`,
`some (some d)` is a date. -/
structure TaskUpdate where
  title : Option String
  description : Option String
  priority : Option Int
  deadline : Option (Option Int)
  deriving DecidableEq

/-- `createInitialState` from `state.ts`: the empty snapshot. -/
def createInitialState : TaskState := ⟨[]⟩

/-- `createTask` from `task-operations.ts`.  The source throws on a priority
outside `[1,5]` or a title that is empty after trimming (`!title.trim()`);
the thrown case is `none` here.  The generated `randomUUID()` and the
`new Date()` creation instant are the explicit `id` and `now` parameters. -/
def createTask (title description : String) (priority : Int)
    (deadline : Option Int) (id : String) (now : Int) : Option Task :=
  if priority < 1 ∨ priority > 5 then none
  else if title.trim = "" then none
  else some
    { id := id, title := title, description := description,
      priority := priority, deadline := deadline, status := .pending,
      createdAt := now, completedAt := none }

/-- `addTask` from `task-operations.ts`: appends the created task to the end
of the collection; propagates `createTask`'s thrown case as `none`. -/
def addTask (state : TaskState) (title description : String) (priority : Int)
    (deadline : Option Int) (id : String) (now : Int) : Option TaskState :=
  (createTask title description priority deadline id now).map
    (fun task => ⟨state.tasks ++ [task]⟩)

/-- `removeTask` from `task-operations.ts`: keeps the tasks whose id differs. -/
def removeTask (state : TaskState) (taskId : String) : TaskState :=
  ⟨state.tasks.filter (fun task => task.id ≠ taskId)⟩

/-- `getTask` from `task-operations.ts`. -/
def getTask (state : TaskState) (taskId : String) : Result Task :=
  match state.tasks.find? (fun task => task.id = taskId) with
  | some task => .ok task
  | none => .error "Task not found"

/-- `updateTaskStatus` from `task-operations.ts`: on the matching task, sets
the status, and sets `completedAt` to `new Date()` (the `now` parameter)
whenever the new status is `completed` — regardless of the previous status —
leaving `completedAt` as it was otherwise. -/
def updateTaskStatus (state : TaskState) (taskId : String)
    (newStatus : TaskStatus) (now : Int) : TaskState :=
  ⟨state.tasks.map (fun task =>
    if task.id = taskId then
      { task with status := newStatus,
                  completedAt :=
                    if newStatus = .completed then some now
                    else task.completedAt }
    else task)⟩

/-- `markInProgress` from `task-operations.ts`. -/
def markInProgress (state : TaskState) (taskId : String) (now : Int) :
    TaskState :=
  updateTaskStatus state taskId .inProgress now

/-- `markCompleted` from `task-operations.ts`. -/
def markCompleted (state : TaskState) (taskId : String) (now : Int) :
    TaskState :=
  updateTaskStatus state taskId .completed now

/-- The source expression `taskUpdate?.deadline ?? task?.deadline`: the
nullish-coalescing operator `??` falls through to the old deadline both when
the patch field is `undefined` (`none`) and when it is `null` (`some none`);
only an actual date (`some (some d)`) replaces the old value. -/
def nullishDeadline (patch : Option (Option Int)) (old : Option Int) :
    Option Int :=
  match patch with
  | some (some d) => some d
  | _ => old

/-- `updateTask` from `task-operations.ts`: fails if no task has the id,
then fails if a supplied priority is outside `[1,5]`, otherwise patches the
matching task field by field with `??` (`Option.getD`, and `nullishDeadline`
for the `Date | null | undefined` deadline field). -/
def updateTask (state : TaskState) (taskId : String)
    (taskUpdate : TaskUpdate) : Result TaskState :=
  if ¬ (state.tasks.any (fun t => t.id = taskId)) then
    .error ("Task with id " ++ taskId ++ " not found")
  else if taskUpdate.priority.any (fun p => p < 1 || p > 5) then
    .error "Priority must be between 1 and 5"
  else
    .ok ⟨state.tasks.map (fun task =>
      if task.id = taskId then
        { task with
            title := taskUpdate.title.getD task.title,
            description := taskUpdate.description.getD task.description,
            priority := taskUpdate.priority.getD task.priority,
            deadline := nullishDeadline taskUpdate.deadline task.deadline }
      else task)⟩

/-- `getAllTasks` from `task-operations.ts`. -/
def getAllTasks (state : TaskState) : List Task := state.tasks

/-- `getTasksByStatus` from `task-operations.ts`. -/
def getTasksByStatus (state : TaskState) (status : TaskStatus) : List Task :=
  state.tasks.filter (fun task => task.status = status)

/-- `getPendingTasks` from `task-operations.ts`. -/
def getPendingTasks (state : TaskState) : List Task :=
  getTasksByStatus state .pending

/-- The comparator `(a, b) => b.priority - a.priority` of `sortByPriority`,
as the non-strict "a sorts no later than b" relation: the comparator is
`≤ 0` exactly when `b.priority ≤ a.priority`. -/
def priorityLE (a b : Task) : Prop := b.priority ≤ a.priority

instance : DecidableRel priorityLE :=
  fun a b => Int.decLe b.priority a.priority

/-- `sortByPriority` from `task-operations.ts`: a stable sort (mandated by
the ECMAScript specification for `Array.prototype.sort`) by priority
descending. -/
def sortByPriority (tasks : List Task) : List Task :=
  List.insertionSort priorityLE tasks

/-- The comparator `(a, b) => a.deadline!.getTime() - b.deadline!.getTime()`
of `sortByDeadline`, applied only to tasks that have a deadline (the `!`
non-null assertion of the source); `getD 0` extracts the present value. -/
def deadlineLE (a b : Task) : Prop := a.deadline.getD 0 ≤ b.deadline.getD 0

instance : DecidableRel deadlineLE :=
  fun a b => Int.decLe (a.deadline.getD 0) (b.deadline.getD 0)

/-- `sortByDeadline` from `task-operations.ts`: the tasks with a deadline,
stably sorted by deadline ascending, followed by the tasks without one in
their original order. -/
def sortByDeadline (tasks : List Task) : List Task :=
  List.insertionSort deadlineLE
      (tasks.filter (fun task => task.deadline ≠ none))
    ++ tasks.filter (fun task => task.deadline = none)

/-- `isOverdue` from `task-operations.ts`: a deadline is present, the status
is not `completed`, and the deadline is strictly before `now`. -/
def isOverdue (task : Task) (now : Int) : Bool :=
  match task.deadline with
  | some d => decide (task.status ≠ .completed) && decide (d < now)
  | none => false

/-- `getOverdueTasks` from `task-operations.ts`. -/
def getOverdueTasks (state : TaskState) (now : Int) : List Task :=
  state.tasks.filter (fun task => isOverdue task now)

/-- `getNextTask` from `task-operations.ts`: first element of the pending
tasks sorted by priority, `none` (the source's `null`) if there is none. -/
def getNextTask (state : TaskState) : Option Task :=
  (sortByPriority (getPendingTasks state)).head?

/-- `getNextTaskByDeadline` from `task-operations.ts`. -/
def getNextTaskByDeadline (state : TaskState) : Option Task :=
  (sortByDeadline (getPendingTasks state)).head?

/-- `markMultipleCompleted` from `task-operations.ts`: one `now` is read for
the whole call; each task whose id is in the set and whose status is not yet
`completed` gets status `completed` and that shared timestamp. -/
def markMultipleCompleted (state : TaskState) (taskIds : List String)
    (now : Int) : TaskState :=
  ⟨state.tasks.map (fun task =>
    if task.id ∈ taskIds ∧ task.status ≠ .completed then
      { task with status := .completed, completedAt := some now }
    else task)⟩

/-- `updatePriorities` from `task-operations.ts`. -/
def updatePriorities (state : TaskState) (taskIds : List String)
    (newPriority : Int) : Result TaskState :=
  if newPriority < 1 ∨ newPriority > 5 then
    .error "Priority must be between 1 and 5"
  else
    .ok ⟨state.tasks.map (fun task =>
      if task.id ∈ taskIds then { task with priority := newPriority }
      else task)⟩

/-- The `TaskStatistics` record from `types.ts`. -/
structure TaskStatistics where
  total : Nat
  pending : Nat
  inProgress : Nat
  completed : Nat
  overdue : Nat
  deriving DecidableEq

/-- The body of the `reduce` in `getStatistics`: bump `total`, bump the
bucket of the task's status, bump `overdue` when `isOverdue` holds. -/
def statsStep (now : Int) (stats : TaskStatistics) (task : Task) :
    TaskStatistics :=
  let s1 := { stats with total := stats.total + 1 }
  let s2 :=
    match task.status with
    | .pending => { s1 with pending := s1.pending + 1 }
    | .inProgress => { s1 with inProgress := s1.inProgress + 1 }
    | .completed => { s1 with completed := s1.completed + 1 }
  if isOverdue task now then { s2 with overdue := s2.overdue + 1 } else s2

/-- `getStatistics` from `task-operations.ts`: a single `reduce` from the
all-zero record. -/
def getStatistics (state : TaskState) (now : Int) : TaskStatistics :=
  state.tasks.foldl (statsStep now) ⟨0, 0, 0, 0, 0⟩

/-- A concrete task for witnesses: title `"t"`, description `"d"`, created at
instant `0`, with the remaining fields as given. -/
def sampleTask (id : String) (priority : Int) (status : TaskStatus)
    (deadline completedAt : Option Int) : Task :=
  { id := id, title := "t", description := "d", priority := priority,
    status := status, createdAt := 0, deadline := deadline,
    completedAt := completedAt }

/-!  ## Invariants and the operation alphabet for reachability  -/

/-- Every task of the snapshot has priority in the inclusive range `[1,5]`
(the data-model invariant `priority ∈ [1,5]`). -/
def PriorityInv (s : TaskState) : Prop :=
  ∀ t ∈ s.tasks, 1 ≤ t.priority ∧ t.priority ≤ 5

/-- Every task of the snapshot has a title that is non-empty after trimming
whitespace. -/
def TitleInv (s : TaskState) : Prop :=
  ∀ t ∈ s.tasks, t.title.trim ≠ ""

/-- One call of a state-transforming operation of the module, with the
hidden `randomUUID()` / `new Date()` effects as explicit data. -/
inductive Op where
  | addTask (title description : String) (priority : Int)
      (deadline : Option Int) (id : String) (now : Int)
  | removeTask (taskId : String)
  | updateTaskStatus (taskId : String) (newStatus : TaskStatus) (now : Int)
  | markInProgress (taskId : String) (now : Int)
  | markCompleted (taskId : String) (now : Int)
  | updateTask (taskId : String) (patch : TaskUpdate)
  | markMultipleCompleted (taskIds : List String) (now : Int)
  | updatePriorities (taskIds : List String) (newPriority : Int)

/-- The state after one operation: a fallible operation that fails (throws,
or returns an error `Result`) leaves the caller holding the old snapshot. -/
def applyOp (state : TaskState) : Op → TaskState
  | .addTask title description priority deadline id now =>
      (addTask state title description priority deadline id now).getD state
  | .removeTask taskId => removeTask state taskId
  | .updateTaskStatus taskId newStatus now =>
      updateTaskStatus state taskId newStatus now
  | .markInProgress taskId now => markInProgress state taskId now
  | .markCompleted taskId now => markCompleted state taskId now
  | .updateTask taskId patch =>
      match updateTask state taskId patch with
      | .ok s' => s'
      | .error _ => state
  | .markMultipleCompleted taskIds now =>
      markMultipleCompleted state taskIds now
  | .updatePriorities taskIds newPriority =>
      match updatePriorities state taskIds newPriority with
      | .ok s' => s'
      | .error _ => state

/-- States reachable from `createInitialState()` by any sequence of the
operations. -/
inductive Reachable : TaskState → Prop where
  | init : Reachable createInitialState
  | step {s : TaskState} (op : Op) : Reachable s → Reachable (applyOp s op)

/-- An operation whose `updateTask` patch, when it supplies a title,
supplies one that is non-empty after trimming (all other operations
qualify unconditionally). -/
def GoodOp : Op → Prop
  | .updateTask _ patch => ∀ x, patch.title = some x → x.trim ≠ ""
  | _ => True

/-- States reachable from `createInitialState()` by sequences of operations
that never patch a title to one that trims to empty. -/
inductive ReachableT : TaskState → Prop where
  | init : ReachableT createInitialState
  | step {s : TaskState} (op : Op) :
      ReachableT s → GoodOp op → ReachableT (applyOp s op)

/-!  ## Concrete snapshots and patches used by witnesses  -/

/-- The one-task state for C1: its task is already `completed`, with
completion timestamp `5`. -/
def c1State : TaskState := ⟨[sampleTask "a" 3 .completed none (some 5)]⟩

/-- The one-task state for C2: its task has deadline `10`. -/
def c2State : TaskState := ⟨[sampleTask "a" 3 .pending (some 10) none]⟩

/-- A patch supplying `deadline: null` and nothing else. -/
def c2NullPatch : TaskUpdate := ⟨none, none, none, some none⟩

/-- A title-only patch whose supplied title `" "` trims to empty. -/
def c3BadPatch : TaskUpdate := ⟨some " ", none, none, none⟩

/-- A state reached from the initial state by a valid `addTask` followed by
an `updateTask` patching the title to `" "` — which `updateTask` accepts,
because only `addTask`/`createTask` validate titles. -/
def c3BadState : TaskState :=
  applyOp (applyOp createInitialState
      (Op.addTask "Valid title" "d" 3 none "id1" 0))
    (Op.updateTask "id1" c3BadPatch)

/-- A state reached by one valid `addTask`, for the C3 witness. -/
def c3GoodState : TaskState :=
  applyOp createInitialState (Op.addTask "Valid title" "d" 3 none "id1" 0)

/-- The two-task state for the C5 witness: a pending `"a"` and an
already-completed `"b"` (timestamp `1`). -/
def c5State : TaskState :=
  ⟨[sampleTask "a" 3 .pending none none,
    sampleTask "b" 4 .completed none (some 1)]⟩

/-- The four-task state for the C7 witness: pending priorities 3, 5, 5 in
insertion order, plus a completed task of priority 5 that must be ignored. -/
def c7State : TaskState :=
  ⟨[sampleTask "p3" 3 .pending none none,
    sampleTask "p5a" 5 .pending none none,
    sampleTask "p5b" 5 .pending none none,
    sampleTask "done" 5 .completed none (some 1)]⟩

/-- The three-task list for the C8 witness: deadlines 20, none, 10. -/
def c8Tasks : List Task :=
  [sampleTask "a" 3 .pending (some 20) none,
   sampleTask "b" 3 .pending none none,
   sampleTask "c" 3 .pending (some 10) none]

/-- The stored task of the C10 witness, with untrimmed whitespace in both
title and description. -/
def c10Task : Task :=
  { id := "i", title := "  Padded title  ", description := " desc ",
    priority := 3, status := TaskStatus.pending, createdAt := 0,
    deadline := none, completedAt := none }

instance : IsTotal Task priorityLE :=
  ⟨fun a b => le_total b.priority a.priority⟩

instance : IsTrans Task priorityLE :=
  ⟨fun _ _ _ hab hbc => le_trans hbc hab⟩

instance : IsTotal Task deadlineLE :=
  ⟨fun a b => le_total (a.deadline.getD 0) (b.deadline.getD 0)⟩

instance : IsTrans Task deadlineLE :=
  ⟨fun _ _ _ hab hbc => le_trans hab hbc⟩

/-!  ## Supporting lemmas about the operations  -/

lemma createTask_some {title description : String} {priority : Int}
    {deadline : Option Int} {id : String} {now : Int} {t : Task}
    (h : createTask title description priority deadline id now = some t) :
    t = { id := id, title := title, description := description,
          priority := priority, deadline := deadline,
          status := TaskStatus.pending, createdAt := now,
          completedAt := none } ∧
    1 ≤ priority ∧ priority ≤ 5 ∧ title.trim ≠ "" := by
  unfold createTask at h
  split at h
  · exact Option.noConfusion h
  · split at h
    · exact Option.noConfusion h
    · rename_i h1 h2
      injection h with h3
      refine ⟨h3.symm, ?_, ?_, h2⟩ <;> omega

lemma addTask_some {s : TaskState} {title description : String}
    {priority : Int} {deadline : Option Int} {id : String} {now : Int}
    {s' : TaskState}
    (h : addTask s title description priority deadline id now = some s') :
    s'.tasks = s.tasks ++
      [{ id := id, title := title, description := description,
         priority := priority, status := TaskStatus.pending,
         createdAt := now, deadline := deadline, completedAt := none }] ∧
    1 ≤ priority ∧ priority ≤ 5 ∧ title.trim ≠ "" := by
  unfold addTask at h
  rcases hc : createTask title description priority deadline id now with _ | tk
  · rw [hc] at h
    exact Option.noConfusion h
  · rw [hc, Option.map_some'] at h
    injection h with h3
    obtain ⟨htk, hb1, hb2, htr⟩ := createTask_some hc
    subst htk
    refine ⟨?_, hb1, hb2, htr⟩
    rw [← h3]

lemma addTask_none_iff {s : TaskState} {title description : String}
    {priority : Int} {deadline : Option Int} {id : String} {now : Int} :
    addTask s title description priority deadline id now = none ↔
      priority < 1 ∨ 5 < priority ∨ title.trim = "" := by
  unfold addTask createTask
  by_cases h1 : priority < 1 ∨ priority > 5
  · rw [if_pos h1]
    simpa using by tauto
  · rw [if_neg h1]
    by_cases h2 : title.trim = ""
    · rw [if_pos h2]
      simpa using by tauto
    · rw [if_neg h2]
      simp only [Option.map_some']
      constructor
      · intro h
        exact Option.noConfusion h
      · rintro (h | h | h)
        · exact absurd (Or.inl h) h1
        · exact absurd (Or.inr h) h1
        · exact absurd h h2

lemma updateTask_not_found {s : TaskState} {taskId : String} {u : TaskUpdate}
    (h : ∀ t ∈ s.tasks, t.id ≠ taskId) :
    updateTask s taskId u =
      .error ("Task with id " ++ taskId ++ " not found") := by
  have hc : ¬ (s.tasks.any (fun t => t.id = taskId) = true) := by
    simp only [List.any_eq_true, decide_eq_true_eq]
    rintro ⟨t, ht, hid⟩
    exact h t ht hid
  unfold updateTask
  rw [if_pos hc]

lemma updateTask_invalid_priority {s : TaskState} {taskId : String}
    {u : TaskUpdate} {p : Int}
    (hex : ∃ t ∈ s.tasks, t.id = taskId)
    (hp : u.priority = some p) (hbad : p < 1 ∨ 5 < p) :
    updateTask s taskId u = .error "Priority must be between 1 and 5" := by
  have hc : ¬ ¬ (s.tasks.any (fun t => t.id = taskId) = true) := by
    simp only [List.any_eq_true, decide_eq_true_eq, not_not]
    exact hex
  have hc2 : u.priority.any (fun q => q < 1 || q > 5) = true := by
    rw [hp]
    simp only [Option.any, Bool.or_eq_true, decide_eq_true_eq]
    omega
  unfold updateTask
  rw [if_neg hc, if_pos hc2]

lemma updateTask_ok {s : TaskState} {taskId : String} {u : TaskUpdate}
    {s' : TaskState} (h : updateTask s taskId u = .ok s') :
    (∀ p, u.priority = some p → 1 ≤ p ∧ p ≤ 5) ∧
    s' = ⟨s.tasks.map (fun task =>
      if task.id = taskId then
        { task with
            title := u.title.getD task.title,
            description := u.description.getD task.description,
            priority := u.priority.getD task.priority,
            deadline := nullishDeadline u.deadline task.deadline }
      else task)⟩ := by
  unfold updateTask at h
  split at h
  · exact Result.noConfusion h
  · split at h
    · exact Result.noConfusion h
    · rename_i hprio
      injection h with h3
      constructor
      · intro p hp
        rw [hp] at hprio
        simp only [Option.any, Bool.or_eq_true, decide_eq_true_eq] at hprio
        omega
      · exact h3.symm

lemma updateTask_isOk {s : TaskState} {taskId : String} {u : TaskUpdate}
    (hex : ∃ t ∈ s.tasks, t.id = taskId)
    (hgood : ∀ p, u.priority = some p → 1 ≤ p ∧ p ≤ 5) :
    (updateTask s taskId u).isOk = true := by
  have hc : ¬ ¬ (s.tasks.any (fun t => t.id = taskId) = true) := by
    simp only [List.any_eq_true, decide_eq_true_eq, not_not]
    exact hex
  have hc2 : ¬ (u.priority.any (fun q => q < 1 || q > 5) = true) := by
    rcases hp : u.priority with _ | p
    · simp [Option.any]
    · have := hgood p hp
      simp only [Option.any, Bool.or_eq_true, decide_eq_true_eq]
      omega
  unfold updateTask
  rw [if_neg hc, if_neg hc2]
  rfl

/-!  ## Claims  -/

/-- **C1, counterexample.**  The claim says a second `markCompleted` on an
already-completed task leaves the completion timestamp unchanged.  On
`c1State` — whose task is `completed` with timestamp `5` — a further
`markCompleted` at instant `7` overwrites the timestamp with `7`: the
second call is not a no-op. -/
theorem c1_second_markCompleted_changes_timestamp :
    c1State.tasks.map Task.status = [TaskStatus.completed] ∧
    c1State.tasks.map Task.completedAt = [some 5] ∧
    (markCompleted c1State "a" 7).tasks.map Task.completedAt = [some 7] := by
  decide

/-- **C1, amended.**  After `markCompleted(s, id)` at instant `now`, every
task carrying the target id has status `completed` and completion timestamp
equal to `now` — the `now` of that very call.  In particular a second call
on an already-completed task keeps the status but overwrites the timestamp
with the second call's `now`, so the timestamp does change when time has
advanced between the calls. -/
theorem c1_markCompleted_sets_current_now (s : TaskState) (taskId : String)
    (now : Int) :
    ∀ t ∈ (markCompleted s taskId now).tasks, t.id = taskId →
      t.status = TaskStatus.completed ∧ t.completedAt = some now := by
  intro t ht hid
  unfold markCompleted updateTaskStatus at ht
  simp only [List.mem_map] at ht
  obtain ⟨t0, _ht0, rfl⟩ := ht
  by_cases h : t0.id = taskId
  · rw [if_pos h]
    exact ⟨rfl, by simp⟩
  · rw [if_neg h] at hid
    exact absurd hid h

/-- Witness for the amended C1, at `c1State`, id `"a"`, instant `7`. -/
theorem c1_markCompleted_sets_current_now_witness :
    (sampleTask "a" 3 .completed none (some 7)).status = TaskStatus.completed ∧
    (sampleTask "a" 3 .completed none (some 7)).completedAt = some 7 :=
  c1_markCompleted_sets_current_now c1State "a" 7
    (sampleTask "a" 3 .completed none (some 7)) (by decide) (by decide)

/-- **C2, the code at the failing input.**  The claim (and the spec) say a
supplied `deadline` of `null` overwrites the task's deadline.  The source
computes the new deadline with `taskUpdate?.deadline ?? task?.deadline`,
and `??` treats `null` as nullish, so the supplied `null` is discarded:
`updateTask` returns the state unchanged, the deadline still `10`.  This
contradicts the code's own `TaskUpdate` declaration, whose
`deadline?: Date | null` only has a purpose if `null` clears the field. -/
theorem c2_null_deadline_is_ignored :
    updateTask c2State "a" c2NullPatch = .ok c2State ∧
    c2State.tasks.map Task.deadline = [some 10] := by
  decide

/-- **C4.**  `updateTask` fails exactly when the id is absent or a supplied
priority lies outside `[1,5]`; the absent-id failure carries the
`"... not found"` message (checked first), the priority failure carries
`"Priority must be between 1 and 5"`.  Failure returns only the error — the
input snapshot is not part of the result and, the embedding being pure, is
unchanged. -/
theorem c4_updateTask_failure_conditions (s : TaskState) (taskId : String)
    (u : TaskUpdate) :
    ((updateTask s taskId u).isOk = false ↔
      (∀ t ∈ s.tasks, t.id ≠ taskId) ∨
        ∃ p, u.priority = some p ∧ (p < 1 ∨ 5 < p)) ∧
    ((∀ t ∈ s.tasks, t.id ≠ taskId) →
      updateTask s taskId u =
        .error ("Task with id " ++ taskId ++ " not found")) ∧
    ((∃ t ∈ s.tasks, t.id = taskId) →
      ∀ p, u.priority = some p → p < 1 ∨ 5 < p →
      updateTask s taskId u = .error "Priority must be between 1 and 5") := by
  refine ⟨⟨?_, ?_⟩, ?_, ?_⟩
  · intro hfail
    by_cases hex : ∃ t ∈ s.tasks, t.id = taskId
    · right
      by_contra hno
      have hg : ∀ p, u.priority = some p → 1 ≤ p ∧ p ≤ 5 := by
        intro p hp
        by_contra hb
        exact hno ⟨p, hp, by omega⟩
      have hok := updateTask_isOk hex hg
      rw [hok] at hfail
      exact Bool.noConfusion hfail
    · left
      push_neg at hex
      exact hex
  · rintro (hno | ⟨p, hp, hbad⟩)
    · rw [updateTask_not_found hno]
      rfl
    · by_cases hex : ∃ t ∈ s.tasks, t.id = taskId
      · rw [updateTask_invalid_priority hex hp hbad]
        rfl
      · push_neg at hex
        rw [updateTask_not_found hex]
        rfl
  · intro hno
    exact updateTask_not_found hno
  · intro hex p hp hbad
    exact updateTask_invalid_priority hex hp hbad

/-- Witness for C4: on the empty initial state every id is absent, and
`updateTask` returns the `"not found"` error. -/
theorem c4_updateTask_failure_conditions_witness :
    updateTask createInitialState "x" c2NullPatch =
      .error ("Task with id " ++ "x" ++ " not found") :=
  (c4_updateTask_failure_conditions createInitialState "x" c2NullPatch).2.1
    (by decide)

/-- **C5.**  `markMultipleCompleted` keeps the length, turns exactly the
tasks whose id is in the set and whose status is not yet `completed` into
`completed` tasks stamped with the single `now` of the call (the source
reads `new Date()` once for the whole batch — the one `now` parameter
here), and returns every other task — including already-completed tasks
whose id is in the set — unchanged, position by position. -/
theorem c5_markMultipleCompleted_pointwise (s : TaskState)
    (taskIds : List String) (now : Int) :
    (markMultipleCompleted s taskIds now).tasks.length = s.tasks.length ∧
    ∀ i : Nat, ∀ t : Task, s.tasks[i]? = some t →
      ((t.id ∈ taskIds ∧ t.status ≠ TaskStatus.completed →
        (markMultipleCompleted s taskIds now).tasks[i]? =
          some { t with status := TaskStatus.completed,
                        completedAt := some now }) ∧
       (t.id ∉ taskIds ∨ t.status = TaskStatus.completed →
        (markMultipleCompleted s taskIds now).tasks[i]? = some t)) := by
  unfold markMultipleCompleted
  refine ⟨by simp, ?_⟩
  intro i t ht
  rw [List.getElem?_map, ht, Option.map_some']
  constructor
  · intro hcond
    rw [if_pos hcond]
  · intro hcond
    have hnot : ¬ (t.id ∈ taskIds ∧ t.status ≠ TaskStatus.completed) := by
      tauto
    rw [if_neg hnot]

/-- Witness for C5 at `c5State` with both ids in the set and `now = 9`:
`"a"` is completed and stamped `9`; the already-completed `"b"` keeps its
old timestamp `1`. -/
theorem c5_markMultipleCompleted_pointwise_witness :
    (markMultipleCompleted c5State ["a", "b"] 9).tasks[0]? =
      some { sampleTask "a" 3 .pending none none with
             status := TaskStatus.completed, completedAt := some 9 } ∧
    (markMultipleCompleted c5State ["a", "b"] 9).tasks[1]? =
      some (sampleTask "b" 4 .completed none (some 1)) :=
  ⟨((c5_markMultipleCompleted_pointwise c5State ["a", "b"] 9).2 0
      (sampleTask "a" 3 .pending none none) (by decide)).1 (by decide),
   ((c5_markMultipleCompleted_pointwise c5State ["a", "b"] 9).2 1
      (sampleTask "b" 4 .completed none (some 1)) (by decide)).2 (by decide)⟩

/-- **C6.**  `addTask` fails fast (the `Option.none` of the embedding, the
`throw` of the source) exactly when the priority is outside `[1,5]` or the
title trims to empty; on success the new collection is the old collection
with the one new task appended last — status `pending`, no completion
timestamp, the given priority and deadline. -/
theorem c6_addTask_spec (s : TaskState) (title description : String)
    (priority : Int) (deadline : Option Int) (id : String) (now : Int) :
    (addTask s title description priority deadline id now = none ↔
      priority < 1 ∨ 5 < priority ∨ title.trim = "") ∧
    ∀ s', addTask s title description priority deadline id now = some s' →
      s'.tasks = s.tasks ++
        [{ id := id, title := title, description := description,
           priority := priority, status := TaskStatus.pending,
           createdAt := now, deadline := deadline, completedAt := none }] := by
  refine ⟨addTask_none_iff, ?_⟩
  intro s' hs'
  exact (addTask_some hs').1

/-- Witness for C6: adding a task to the empty initial state appends it. -/
theorem c6_addTask_spec_witness :
    (⟨[{ id := "i", title := "t", description := "d", priority := 3,
         status := TaskStatus.pending, createdAt := 0, deadline := none,
         completedAt := none }]⟩ : TaskState).tasks =
      createInitialState.tasks ++
        [{ id := "i", title := "t", description := "d", priority := 3,
           status := TaskStatus.pending, createdAt := 0, deadline := none,
           completedAt := none }] :=
  (c6_addTask_spec createInitialState "t" "d" 3 none "i" 0).2
    ⟨[{ id := "i", title := "t", description := "d", priority := 3,
        status := TaskStatus.pending, createdAt := 0, deadline := none,
        completedAt := none }]⟩ (by decide)

/-- **C10.**  Whatever title and description `addTask` accepts are stored on
the appended task verbatim — trimming is used only in the validation, never
on the stored value. -/
theorem c10_addTask_stores_raw_strings (s : TaskState)
    (title description : String) (priority : Int) (deadline : Option Int)
    (id : String) (now : Int) (s' : TaskState)
    (h : addTask s title description priority deadline id now = some s') :
    (s'.tasks.getLast?).map Task.title = some title ∧
    (s'.tasks.getLast?).map Task.description = some description := by
  rw [(addTask_some h).1, List.getLast?_concat]
  exact ⟨rfl, rfl⟩

/-- Witness for C10: a title with leading and trailing whitespace is
accepted (its trim is non-empty) and stored with the whitespace intact. -/
theorem c10_addTask_stores_raw_strings_witness :
    ((⟨[c10Task]⟩ : TaskState).tasks.getLast?).map Task.title =
      some "  Padded title  " ∧
    ((⟨[c10Task]⟩ : TaskState).tasks.getLast?).map Task.description =
      some " desc " :=
  c10_addTask_stores_raw_strings createInitialState "  Padded title  "
    " desc " 3 none "i" 0 ⟨[c10Task]⟩ (by decide)

lemma getStatistics_foldl (now : Int) (l : List Task) :
    ∀ acc : TaskStatistics,
      l.foldl (statsStep now) acc =
        ⟨acc.total + l.length,
         acc.pending + l.countP (fun t => t.status = TaskStatus.pending),
         acc.inProgress +
           l.countP (fun t => t.status = TaskStatus.inProgress),
         acc.completed + l.countP (fun t => t.status = TaskStatus.completed),
         acc.overdue + l.countP (fun t => isOverdue t now)⟩ := by
  induction l with
  | nil => intro acc; simp
  | cons h tl ih =>
    intro acc
    rw [List.foldl_cons, ih]
    cases hs : h.status <;> cases hov : isOverdue h now <;>
      simp [statsStep, hs, hov, List.countP_cons] <;> omega

lemma countP_status_partition (l : List Task) :
    l.countP (fun t => t.status = TaskStatus.pending) +
    l.countP (fun t => t.status = TaskStatus.inProgress) +
    l.countP (fun t => t.status = TaskStatus.completed) = l.length := by
  induction l with
  | nil => simp
  | cons h tl ih =>
    cases hs : h.status <;> simp [List.countP_cons, hs] <;> omega

/-- **C9.**  `getStatistics` counts every task exactly once into `total`
and exactly once into one of the three status buckets, so
`pending + inProgress + completed = total = length`; `overdue` counts the
tasks satisfying `isOverdue`, independently of the status buckets. -/
theorem c9_getStatistics_consistent (s : TaskState) (now : Int) :
    (getStatistics s now).total = s.tasks.length ∧
    (getStatistics s now).pending + (getStatistics s now).inProgress +
      (getStatistics s now).completed = (getStatistics s now).total ∧
    (getStatistics s now).overdue =
      s.tasks.countP (fun t => isOverdue t now) := by
  unfold getStatistics
  rw [getStatistics_foldl]
  have hpart := countP_status_partition s.tasks
  refine ⟨by simp, ?_, by simp⟩
  simp only [Nat.zero_add]
  omega

lemma insertionSort_head_first (l : List Task) :
    ∀ {t : Task} {rest : List Task},
      List.insertionSort priorityLE l = t :: rest →
      ∃ l₁ l₂, l = l₁ ++ t :: l₂ ∧ ∀ u ∈ l₁, u.priority < t.priority := by
  induction l with
  | nil =>
    intro t rest h
    rw [List.insertionSort] at h
    exact List.noConfusion h
  | cons a l ih =>
    intro t rest h
    rw [List.insertionSort] at h
    rcases h2 : List.insertionSort priorityLE l with _ | ⟨b, bs⟩
    · rw [h2, List.orderedInsert] at h
      injection h with h3 h4
      subst h3
      exact ⟨[], l, rfl, by simp⟩
    · rw [h2, List.orderedInsert] at h
      by_cases hr : priorityLE a b
      · rw [if_pos hr] at h
        injection h with h3 h4
        subst h3
        exact ⟨[], l, rfl, by simp⟩
      · rw [if_neg hr] at h
        injection h with h3 h4
        subst h3
        obtain ⟨l₁, l₂, hl, hlt⟩ := ih h2
        refine ⟨a :: l₁, l₂, by rw [hl, List.cons_append], ?_⟩
        intro u hu
        rcases List.mem_cons.1 hu with rfl | hu'
        · exact lt_of_not_le hr
        · exact hlt u hu'

lemma insertionSort_head_ge (l : List Task) {t : Task} {rest : List Task}
    (h : List.insertionSort priorityLE l = t :: rest) :
    ∀ u ∈ l, u.priority ≤ t.priority := by
  intro u hu
  have hs := List.sorted_insertionSort priorityLE l
  rw [h] at hs
  have hmem : u ∈ t :: rest := by
    rw [← h]
    exact (List.mem_insertionSort priorityLE).2 hu
  rcases List.mem_cons.1 hmem with rfl | hmem'
  · exact le_refl _
  · exact List.rel_of_sorted_cons hs u hmem'

/-- **C7.**  `getNextTask` returns the absent value exactly when no task is
pending; when it returns a task, that task is pending, of maximal priority
among the pending tasks, and is the first task of maximal priority in the
state's canonical order (every pending task before it has strictly smaller
priority) — the stable-sort tie-break of the claim. -/
theorem c7_getNextTask_highest_priority_stable (s : TaskState) :
    (getNextTask s = none ↔ getPendingTasks s = []) ∧
    ∀ t, getNextTask s = some t →
      t ∈ getPendingTasks s ∧ t.status = TaskStatus.pending ∧
      (∀ u ∈ getPendingTasks s, u.priority ≤ t.priority) ∧
      ∃ l₁ l₂, getPendingTasks s = l₁ ++ t :: l₂ ∧
        ∀ u ∈ l₁, u.priority < t.priority := by
  constructor
  · unfold getNextTask sortByPriority
    rw [List.head?_eq_none_iff]
    constructor
    · intro h
      have hlen := congrArg List.length h
      rw [List.length_insertionSort] at hlen
      exact List.length_eq_zero.1 (by simpa using hlen)
    · intro h
      rw [h]
      rfl
  · intro t h
    unfold getNextTask sortByPriority at h
    rcases hs : List.insertionSort priorityLE (getPendingTasks s)
      with _ | ⟨t', rest⟩
    · rw [hs] at h
      exact Option.noConfusion h
    · rw [hs] at h
      injection h with h3
      subst h3
      obtain ⟨l₁, l₂, hl, hlt⟩ := insertionSort_head_first _ hs
      have hm : t' ∈ getPendingTasks s := by
        rw [hl]
        exact List.mem_append.2 (Or.inr (List.mem_cons_self _ _))
      have hpend : t'.status = TaskStatus.pending := by
        unfold getPendingTasks getTasksByStatus at hm
        simpa using (List.mem_filter.1 hm).2
      exact ⟨hm, hpend, insertionSort_head_ge _ hs, l₁, l₂, hl, hlt⟩

/-- Witness for C7 at `c7State`: `getNextTask` picks `"p5a"`, the earliest
inserted of the two pending priority-5 tasks, which is indeed pending. -/
theorem c7_getNextTask_highest_priority_stable_witness :
    sampleTask "p5a" 5 .pending none none ∈ getPendingTasks c7State ∧
    (sampleTask "p5a" 5 .pending none none).status = TaskStatus.pending :=
  ⟨(((c7_getNextTask_highest_priority_stable c7State).2
      (sampleTask "p5a" 5 .pending none none)) (by decide)).1,
   (((c7_getNextTask_highest_priority_stable c7State).2
      (sampleTask "p5a" 5 .pending none none)) (by decide)).2.1⟩

/-- **C8.**  `sortByDeadline` returns a permutation of its input (no task
dropped or duplicated) of the shape `d ++ (deadline-less tasks in original
relative order)`, where `d` is a permutation of the deadlined tasks that is
sorted ascending by deadline.  The deadline-less suffix is literally the
`filter` of the input, hence in original relative order among themselves
and after all deadlined tasks. -/
theorem c8_sortByDeadline_partition_sorted (tasks : List Task) :
    List.Perm (sortByDeadline tasks) tasks ∧
    ∃ d, sortByDeadline tasks =
        d ++ tasks.filter (fun task => task.deadline = none) ∧
      List.Perm d (tasks.filter (fun task => task.deadline ≠ none)) ∧
      d.Pairwise deadlineLE := by
  constructor
  · unfold sortByDeadline
    have h1 : List.Perm (List.insertionSort deadlineLE
        (tasks.filter (fun task => task.deadline ≠ none)))
        (tasks.filter (fun task => task.deadline ≠ none)) :=
      List.perm_insertionSort _ _
    have hq : tasks.filter
        (fun x => !(decide (x.deadline ≠ none))) =
        tasks.filter (fun x => decide (x.deadline = none)) := by
      apply List.filter_congr
      intro x _
      rcases x.deadline with _ | d <;> simp
    have h2 := List.filter_append_perm
      (fun t => decide (t.deadline ≠ none)) tasks
    rw [hq] at h2
    exact (h1.append_right _).trans h2
  · exact ⟨List.insertionSort deadlineLE
        (tasks.filter (fun task => task.deadline ≠ none)), rfl,
      List.perm_insertionSort _ _, List.sorted_insertionSort _ _⟩

/-- Witness for C8, at the concrete `c8Tasks` (deadlines 20, none, 10): the
result is the permutation with the two deadlined tasks ascending first and
the deadline-less task last. -/
theorem c8_sortByDeadline_partition_sorted_witness :
    List.Perm (sortByDeadline c8Tasks) c8Tasks ∧
    sortByDeadline c8Tasks =
      [sampleTask "c" 3 .pending (some 10) none,
       sampleTask "a" 3 .pending (some 20) none,
       sampleTask "b" 3 .pending none none] :=
  ⟨(c8_sortByDeadline_partition_sorted c8Tasks).1, by decide⟩

lemma mapPriorityInv {l : List Task} {f : Task → Task}
    (hf : ∀ t, 1 ≤ t.priority ∧ t.priority ≤ 5 →
      1 ≤ (f t).priority ∧ (f t).priority ≤ 5)
    (h : PriorityInv ⟨l⟩) : PriorityInv ⟨l.map f⟩ := by
  intro t' ht'
  obtain ⟨t, ht, rfl⟩ := List.mem_map.1 ht'
  exact hf t (h t ht)

lemma mapTitleInv {l : List Task} {f : Task → Task}
    (hf : ∀ t, t.title.trim ≠ "" → (f t).title.trim ≠ "")
    (h : TitleInv ⟨l⟩) : TitleInv ⟨l.map f⟩ := by
  intro t' ht'
  obtain ⟨t, ht, rfl⟩ := List.mem_map.1 ht'
  exact hf t (h t ht)

lemma updatePriorities_ok {s : TaskState} {taskIds : List String}
    {newPriority : Int} {s' : TaskState}
    (h : updatePriorities s taskIds newPriority = .ok s') :
    (1 ≤ newPriority ∧ newPriority ≤ 5) ∧
    s' = ⟨s.tasks.map (fun t =>
      if t.id ∈ taskIds then { t with priority := newPriority } else t)⟩ := by
  unfold updatePriorities at h
  split at h
  · exact Result.noConfusion h
  · rename_i h1
    injection h with h3
    exact ⟨by omega, h3.symm⟩

lemma updateTaskStatus_inv (s : TaskState) (taskId : String)
    (st : TaskStatus) (now : Int) :
    (PriorityInv s → PriorityInv (updateTaskStatus s taskId st now)) ∧
    (TitleInv s → TitleInv (updateTaskStatus s taskId st now)) := by
  unfold updateTaskStatus
  constructor
  · refine fun h => mapPriorityInv ?_ h
    intro t ht
    by_cases hid : t.id = taskId
    · rw [if_pos hid]
      exact ht
    · rw [if_neg hid]
      exact ht
  · refine fun h => mapTitleInv ?_ h
    intro t ht
    by_cases hid : t.id = taskId
    · rw [if_pos hid]
      exact ht
    · rw [if_neg hid]
      exact ht

lemma applyOp_inv (s : TaskState) (op : Op) (hP : PriorityInv s) :
    PriorityInv (applyOp s op) ∧
    (GoodOp op → TitleInv s → TitleInv (applyOp s op)) := by
  cases op with
  | addTask title description priority deadline id now =>
    rcases h : addTask s title description priority deadline id now
      with _ | s'
    · simp only [applyOp, h, Option.getD]
      exact ⟨hP, fun _ hT => hT⟩
    · obtain ⟨hs', hb1, hb2, htr⟩ := addTask_some h
      simp only [applyOp, h, Option.getD]
      constructor
      · intro t ht
        rw [hs'] at ht
        rcases List.mem_append.1 ht with ht | ht
        · exact hP t ht
        · have := List.mem_singleton.1 ht
          subst this
          exact ⟨hb1, hb2⟩
      · intro _ hT t ht
        rw [hs'] at ht
        rcases List.mem_append.1 ht with ht | ht
        · exact hT t ht
        · have := List.mem_singleton.1 ht
          subst this
          exact htr
  | removeTask taskId =>
    constructor
    · intro t ht
      simp only [applyOp, removeTask] at ht
      exact hP t (List.mem_filter.1 ht).1
    · intro _ hT t ht
      simp only [applyOp, removeTask] at ht
      exact hT t (List.mem_filter.1 ht).1
  | updateTaskStatus taskId newStatus now =>
    have h := updateTaskStatus_inv s taskId newStatus now
    exact ⟨h.1 hP, fun _ hT => h.2 hT⟩
  | markInProgress taskId now =>
    have h := updateTaskStatus_inv s taskId .inProgress now
    exact ⟨h.1 hP, fun _ hT => h.2 hT⟩
  | markCompleted taskId now =>
    have h := updateTaskStatus_inv s taskId .completed now
    exact ⟨h.1 hP, fun _ hT => h.2 hT⟩
  | updateTask taskId patch =>
    rcases hu : updateTask s taskId patch with s' | msg
    · obtain ⟨hpr, rfl⟩ := updateTask_ok hu
      simp only [applyOp, hu]
      constructor
      · refine mapPriorityInv ?_ hP
        intro t htb
        by_cases hid : t.id = taskId
        · rw [if_pos hid]
          rcases hq : patch.priority with _ | p
          · simpa [hq] using htb
          · have := hpr p hq
            simpa [hq] using this
        · rw [if_neg hid]
          exact htb
      · intro hgood hT
        refine mapTitleInv ?_ hT
        intro t htb
        by_cases hid : t.id = taskId
        · rw [if_pos hid]
          rcases hq : patch.title with _ | x
          · simpa [hq] using htb
          · simpa [hq] using hgood x hq
        · rw [if_neg hid]
          exact htb
    · simp only [applyOp, hu]
      exact ⟨hP, fun _ hT => hT⟩
  | markMultipleCompleted taskIds now =>
    simp only [applyOp]
    unfold markMultipleCompleted
    constructor
    · refine mapPriorityInv ?_ hP
      intro t ht
      by_cases hc : t.id ∈ taskIds ∧ t.status ≠ TaskStatus.completed
      · rw [if_pos hc]
        exact ht
      · rw [if_neg hc]
        exact ht
    · intro _ hT
      refine mapTitleInv ?_ hT
      intro t ht
      by_cases hc : t.id ∈ taskIds ∧ t.status ≠ TaskStatus.completed
      · rw [if_pos hc]
        exact ht
      · rw [if_neg hc]
        exact ht
  | updatePriorities taskIds newPriority =>
    rcases hu : updatePriorities s taskIds newPriority with s' | msg
    · obtain ⟨hb, rfl⟩ := updatePriorities_ok hu
      simp only [applyOp, hu]
      constructor
      · refine mapPriorityInv ?_ hP
        intro t ht
        by_cases hc : t.id ∈ taskIds
        · rw [if_pos hc]
          exact hb
        · rw [if_neg hc]
          exact ht
      · intro _ hT
        refine mapTitleInv ?_ hT
        intro t ht
        by_cases hc : t.id ∈ taskIds
        · rw [if_pos hc]
          exact ht
        · rw [if_neg hc]
          exact ht
    · simp only [applyOp, hu]
      exact ⟨hP, fun _ hT => hT⟩

/-- **C3, counterexample.**  `c3BadState` is reachable from the initial
state by two operations — a valid `addTask` and then an `updateTask` whose
patch sets the title to `" "` — yet it violates the claimed invariant:
`updateTask` never validates a patched title, so the reachable state holds
a task whose title trims to empty. -/
theorem c3_title_invariant_fails_on_reachable_state :
    Reachable c3BadState ∧
    ¬ (∀ t ∈ c3BadState.tasks,
        (1 ≤ t.priority ∧ t.priority ≤ 5) ∧ t.title.trim ≠ "") :=
  ⟨Reachable.step _ (Reachable.step _ Reachable.init), by decide⟩

/-- **C3, amended.**  The priority half of the invariant does hold in every
reachable state; the title half holds provided every `updateTask` along the
way that supplies a title supplies one that is non-empty after trimming
(`ReachableT`), which is exactly the restriction forced by the
counterexample. -/
theorem c3_reachable_invariants :
    (∀ s : TaskState, Reachable s → PriorityInv s) ∧
    (∀ s : TaskState, ReachableT s → PriorityInv s ∧ TitleInv s) := by
  constructor
  · intro s h
    induction h with
    | init =>
      intro t ht
      exact absurd ht (List.not_mem_nil t)
    | step op hs ih => exact (applyOp_inv _ op ih).1
  · intro s h
    induction h with
    | init =>
      constructor <;> intro t ht <;> exact absurd ht (List.not_mem_nil t)
    | step op hs hg ih =>
      exact ⟨(applyOp_inv _ op ih.1).1, (applyOp_inv _ op ih.1).2 hg ih.2⟩

/-- Witness for the amended C3: the state reached by one valid `addTask`
satisfies both invariant halves. -/
theorem c3_reachable_invariants_witness :
    PriorityInv c3GoodState ∧ TitleInv c3GoodState :=
  c3_reachable_invariants.2 c3GoodState
    (ReachableT.step _ ReachableT.init trivial)

end TaskScheduler
